import Mathlib

/-!
Verification of the mysql-sync-pro row-diff synchronization engine.

This file gives a shallow embedding of the core of the repository:

* src/src/sync.py           -- per-table diff and apply (sync_table and helpers)
* src/utils/change_detector.py -- signature computation and persistence
* src/examples/full_real_time_sync.py -- the bidirectional loop body

Databases are modelled as finite sets of primary-key tuples together with a
row-valued map; network effects (reads and writes issued by sync_table) are
recorded as an explicit effect trace.  Primary-key scalars are drawn from an
arbitrary linearly ordered type, matching the untyped tuples Python sorts
lexicographically.  The MD5 hash applied by the code is kept as an abstract
function parameter: every property proved here holds for an arbitrary hash,
so nothing depends on properties of MD5 itself.
-/

namespace MySqlSyncPro

/-- A database value as the engine renders it for hashing and payloads:
NULL (none) or a scalar cast to a character string. -/
abbrev Value := Option String

/-- A fetched data row: mapping from column name to value, as produced by
fetch_rows_by_pks (dict(row) in the source). -/
abbrev Row := List (String × Value)

/-- One reflected column: its name and whether it is a generated/computed
column (col.computed is not None in the source). -/
structure Column where
  name : String
  isComputed : Bool
deriving DecidableEq

/-- Reflected structure of one table: name, full column list, and the
primary-key column names in declaration order (table.primary_key.columns). -/
structure TableSchema where
  name : String
  columns : List Column
  pkNames : List String
deriving DecidableEq

/-- Run configuration for one sync invocation (dataclass SyncOptions). -/
structure SyncOptions where
  dryRun : Bool
  batchSize : Nat
  disableFKChecks : Bool
  useInsertIgnore : Bool
deriving DecidableEq

section Engine

variable {α : Type} [LinearOrder α] [DecidableEq α]

/-- One side of a table as the SQL executor exposes it to the sync engine:
the set of primary-key tuples currently present, and for each key the full
row the engine would return for it (SELECT star). -/
structure DBTable (α : Type) where
  keys : Finset (List α)
  rowOf : List α → Row

/-- get_primary_key_column_names: PK column names in declaration order. -/
def get_primary_key_column_names (t : TableSchema) : List String :=
  t.pkNames

/-- get_computed_column_names: names of generated/computed columns. -/
def get_computed_column_names (t : TableSchema) : List String :=
  (t.columns.filter (fun c => c.isComputed)).map (fun c => c.name)

/-- get_updatable_column_names: all columns except primary-key and
computed columns, in table column order. -/
def get_updatable_column_names (t : TableSchema) (pkColumnNames : List String) : List String :=
  (t.columns.filter
    (fun c => c.name ∉ pkColumnNames ∧ c.name ∉ get_computed_column_names t)).map
    (fun c => c.name)

/-- Value of a named column in a fetched row; a column absent from the
mapping reads as NULL. -/
def colVal (r : Row) (n : String) : Value :=
  (r.lookup n).getD none

/-- The NULL marker token used by build_row_fingerprint_expr. -/
def nullToken : String := "␀"

/-- build_row_fingerprint_expr evaluated on one row: MD5 over the
pipe-joined, NULL-coalesced data columns (CONCAT_WS with separator, each
column COALESCEd to the null token; empty column list hashes the empty
string).  The hash is the abstract parameter md5. -/
def row_fingerprint (md5 : String → String) (dataColumnNames : List String) (r : Row) : String :=
  md5 (String.intercalate "|" (dataColumnNames.map (fun n => (colVal r n).getD nullToken)))

/-- Sort a finite set of primary-key tuples ascending; the order on tuples
is the lexicographic order on their elements (Python sorted on tuples). -/
def sortPKs (s : Finset (List α)) : List (List α) :=
  s.sort (· ≤ ·)

/-- Lines 391-393 of sync_table: to_insert, to_delete and overlap as
sorted lists computed from the two primary-key sets. -/
def diffKeys (localPKs prodPKs : Finset (List α)) :
    List (List α) × List (List α) × List (List α) :=
  (sortPKs (localPKs \ prodPKs), sortPKs (prodPKs \ localPKs),
    sortPKs (localPKs ∩ prodPKs))

/-- Structural helper for chunked: fuel bounds the recursion depth (the
length of the sequence always suffices for a positive chunk size). -/
def chunkedAux {β : Type} (size : Nat) : Nat → List β → List (List β)
  | 0, _ => []
  | _, [] => []
  | fuel + 1, b :: rest =>
    if size = 0 then []
    else (b :: rest).take size :: chunkedAux size fuel ((b :: rest).drop size)

/-- chunked: split a sequence into consecutive chunks of the given size
(the final chunk may be shorter).  For chunk size zero the Python range
raises; the model returns no chunks, and every use assumes a positive
batch size. -/
def chunked {β : Type} (seq : List β) (size : Nat) : List (List β) :=
  chunkedAux size seq.length seq

/-- fetch_pk_values: the set of primary-key tuples present on one side. -/
def fetch_pk_values (db : DBTable α) : Finset (List α) :=
  db.keys

/-- fetch_rows_by_pks: full rows for exactly the requested keys that are
present; an empty request returns no rows without a round-trip. -/
def fetch_rows_by_pks (db : DBTable α) (pkValues : List (List α)) : List Row :=
  (pkValues.filter (fun pk => pk ∈ db.keys)).map db.rowOf

/-- fetch_hashes_for_pks as the returned dictionary: a key maps to its row
fingerprint when it was requested and is present in the table, and is
absent from the dictionary otherwise (dict.get then yields none). -/
def fetch_hashes_for_pks (md5 : String → String) (dataColumnNames : List String)
    (db : DBTable α) (pkValues : List (List α)) : List α → Option String :=
  fun pk =>
    if pk ∈ pkValues ∧ pk ∈ db.keys then
      some (row_fingerprint md5 dataColumnNames (db.rowOf pk))
    else none

/-- Which endpoint a read hits. -/
inductive Side where
  | localSide
  | prodSide
deriving DecidableEq

/-- One observable action sync_table takes against the two databases: a
read (primary-key scan, row fetch, hash fetch), a mutation (insert batch,
upsert batch, delete batch), the session FOREIGN_KEY_CHECKS toggle, or the
warning log emitted for a table without a primary key. -/
inductive Effect (α : Type) where
  | warnNoPK (tableName : String)
  | readPKs (side : Side) (tableName : String)
  | readRows (side : Side) (tableName : String) (pkValues : List (List α))
  | readHashes (side : Side) (tableName : String) (pkValues : List (List α))
  | insert (tableName : String) (rows : List Row) (useInsertIgnore : Bool)
  | upsert (tableName : String) (rows : List Row) (updateColumnNames : List String)
  | delete (tableName : String) (pkValues : List (List α))
  | setFK (enabled : Bool)
deriving DecidableEq

variable {α : Type} [LinearOrder α] [DecidableEq α]

/-- The column names insert_rows keeps: every column of the destination
table that is not generated/computed (allowed_cols). -/
def insert_allowed_cols (t : TableSchema) : List String :=
  (t.columns.filter (fun c => !c.isComputed)).map (fun c => c.name)

/-- The payload insert_rows actually writes: each row restricted to the
allowed (non-computed) columns of the destination table. -/
def insert_payload (t : TableSchema) (rows : List Row) : List Row :=
  rows.map (fun r => r.filter (fun kv => kv.1 ∈ insert_allowed_cols t))

/-- insert_rows: an empty row list returns 0 with no round-trip;
otherwise the computed-column-stripped payload is written in one statement
(with the IGNORE keyword when requested) and the payload length is
returned. -/
def insert_rows (t : TableSchema) (rows : List Row) (useInsertIgnore : Bool) :
    List (Effect α) × Nat :=
  if rows = [] then ([], 0)
  else
    let payload := insert_payload t rows
    ([Effect.insert t.name payload useInsertIgnore], payload.length)

/-- The primary-key value tuple of a payload row, as the destination
engine reads it when checking key conflicts. -/
def row_pk (pkColumnNames : List String) (r : Row) : List Value :=
  pkColumnNames.map (colVal r)

/-- Modelled from the spec: the INSERT IGNORE behavior of the destination engine
semantics (section 4.3 and the glossary; the engine itself is an external
collaborator, not repository code).  Rows whose primary-key tuple already
exists on the destination are silently skipped instead of failing the
batch; the result is how many payload rows the engine actually writes. -/
def insert_ignore_written (existing : Finset (List Value))
    (pkColumnNames : List String) (payload : List Row) : Nat :=
  (payload.filter (fun r => row_pk pkColumnNames r ∉ existing)).length

/-- The sanitized upsert payload of sync_table: fetched changed rows with
the computed columns of the (local) table removed. -/
def upsert_sanitized (t : TableSchema) (rows : List Row) : List Row :=
  rows.map (fun r => r.filter (fun kv => kv.1 ∉ get_computed_column_names t))

/-- upsert_rows: an empty row list returns 0 with no round-trip; otherwise
one ON DUPLICATE KEY UPDATE statement writes the rows, updating the named
columns, and the row count is returned. -/
def upsert_rows (t : TableSchema) (rows : List Row) (updateColumnNames : List String) :
    List (Effect α) × Nat :=
  if rows = [] then ([], 0)
  else ([Effect.upsert t.name rows updateColumnNames], rows.length)

/-- The insert phase of sync_table: for each batch of to_insert keys,
fetch the rows from the local side and insert them into production. -/
def insert_phase (localT prodT : TableSchema) (localDB : DBTable α)
    (opts : SyncOptions) (toInsert : List (List α)) : List (Effect α) :=
  if toInsert = [] then []
  else
    (chunked toInsert opts.batchSize).flatMap (fun batch =>
      let rows := fetch_rows_by_pks localDB batch
      Effect.readRows Side.localSide localT.name batch ::
        (insert_rows prodT rows opts.useInsertIgnore).1)

/-- The changed keys of one overlap batch: keys whose local and production
hash-dictionary entries differ (dict.get comparison in the source). -/
def changed_pks_in_batch (md5 : String → String) (dataColumnNames : List String)
    (localDB prodDB : DBTable α) (batch : List (List α)) : List (List α) :=
  batch.filter (fun pk =>
    fetch_hashes_for_pks md5 dataColumnNames localDB batch pk ≠
      fetch_hashes_for_pks md5 dataColumnNames prodDB batch pk)

/-- The update phase of sync_table: when data columns exist, fetch both
row hashes of both sides per overlap batch, fetch the changed rows from the local
side, strip computed columns and upsert into production. -/
def update_phase (md5 : String → String) (localT prodT : TableSchema)
    (localDB prodDB : DBTable α) (opts : SyncOptions)
    (overlap : List (List α)) : List (Effect α) :=
  if overlap = [] then []
  else
    let dataCols := get_updatable_column_names localT (get_primary_key_column_names localT)
    if dataCols = [] then []
    else
      (chunked overlap opts.batchSize).flatMap (fun batch =>
        let changed := changed_pks_in_batch md5 dataCols localDB prodDB batch
        Effect.readHashes Side.localSide localT.name batch ::
          Effect.readHashes Side.prodSide prodT.name batch ::
          (if changed = [] then []
           else
             let changedRows := fetch_rows_by_pks localDB changed
             Effect.readRows Side.localSide localT.name changed ::
               (upsert_rows prodT (upsert_sanitized localT changedRows) dataCols :
                 List (Effect α) × Nat).1))

/-- The delete phase of sync_table: delete each batch of to_delete keys
from production. -/
def delete_phase (prodT : TableSchema) (opts : SyncOptions)
    (toDelete : List (List α)) : List (Effect α) :=
  if toDelete = [] then []
  else
    (chunked toDelete opts.batchSize).map (fun batch =>
      Effect.delete prodT.name batch)

/-- The changed keys sync_table upserts for one table: union over the
overlap batches of the keys whose local and production fingerprints
differ; empty when the table has no non-key, non-computed data columns. -/
def sync_table_changed_pks (md5 : String → String) (localT : TableSchema)
    (localDB prodDB : DBTable α) (opts : SyncOptions) : List (List α) :=
  let overlap := sortPKs (localDB.keys ∩ prodDB.keys)
  if overlap = [] then []
  else
    let dataCols := get_updatable_column_names localT (get_primary_key_column_names localT)
    if dataCols = [] then []
    else
      (chunked overlap opts.batchSize).flatMap
        (changed_pks_in_batch md5 dataCols localDB prodDB)

/-- sync_table as an effect trace.  A table without a primary key is
skipped with a warning before any database access.  Otherwise both key
sets are read and diffed; a dry run stops after planning.  A real apply
optionally turns FOREIGN_KEY_CHECKS off, runs the insert, update and
delete phases inside a try block, and the finally block turns the checks
back on.  failAt models an exception inside the try block: the effect at
that index (and everything after it) never happens, but the finally block
still runs. -/
def sync_table (md5 : String → String) (localT prodT : TableSchema)
    (localDB prodDB : DBTable α) (opts : SyncOptions) (failAt : Option Nat) :
    List (Effect α) :=
  if get_primary_key_column_names localT = [] then
    [Effect.warnNoPK localT.name]
  else
    let d := diffKeys localDB.keys prodDB.keys
    let plan : List (Effect α) :=
      [Effect.readPKs Side.localSide localT.name,
       Effect.readPKs Side.prodSide prodT.name]
    if opts.dryRun then plan
    else
      let body :=
        insert_phase localT prodT localDB opts d.1 ++
          update_phase md5 localT prodT localDB prodDB opts d.2.2 ++
          delete_phase prodT opts d.2.1
      let executed :=
        match failAt with
        | none => body
        | some i => body.take i
      plan ++ (if opts.disableFKChecks then [Effect.setFK false] else []) ++
        executed ++
        (if opts.disableFKChecks then [Effect.setFK true] else [])

/-- Whether an effect mutates the destination or toggles session state
(anything beyond a read or a log line). -/
def is_write_effect : Effect α → Bool
  | Effect.insert _ _ _ => true
  | Effect.upsert _ _ _ => true
  | Effect.delete _ _ => true
  | Effect.setFK _ => true
  | _ => false

/-- Whether an effect is the FOREIGN_KEY_CHECKS toggle. -/
def is_fk_effect : Effect α → Bool
  | Effect.setFK _ => true
  | _ => false

end Engine

/-! ### Signature engine (src/utils/change_detector.py)

The two SQL-backed strategies are modelled by their results: binlogSig is
what get_binlog_signature returns (either a binlog:file:position string or
the empty string on failure or missing permission) and contentSig is what
content_dynamic_signature returns (either a content:hash string or the
empty string on failure).  A state file is an Option String: none for a
missing (or unreadable) file, some c for a file with content c. -/

/-- The explicitly selectable signature strategies of get_quick_signature;
none means no explicit selection (priority fallback). -/
inductive SigType where
  | binlog
  | content
deriving DecidableEq

/-- get_quick_signature: an explicit type returns the result of that strategy
unconditionally; otherwise the fallback tries the binlog signature, then
the content signature, and raises a ValueError when both are empty.  (The
Python message contains an apostrophe; it is elided here.) -/
def get_quick_signature (binlogSig contentSig : String) (sigType : Option SigType) :
    Except String String :=
  match sigType with
  | some SigType.content => Except.ok contentSig
  | some SigType.binlog => Except.ok binlogSig
  | none =>
    if binlogSig ≠ "" then Except.ok binlogSig
    else if contentSig ≠ "" then Except.ok contentSig
    else Except.error "cant get signature"

/-- Insertion of one string into a sorted list (ascending). -/
def insertSorted (s : String) : List String → List String
  | [] => [s]
  | t :: rest => if s ≤ t then s :: t :: rest else t :: insertSorted s rest

/-- Ascending sort of a list of strings (Python sorted). -/
def sortStrings : List String → List String
  | [] => []
  | s :: rest => insertSorted s (sortStrings rest)

/-- database_quick_signature (src/src/sync.py): one MD5 over the sorted
name:fingerprint lines of the per-table quick fingerprints (the
fingerprints themselves come from table_quick_fingerprint via SQL
aggregates and are parameters here), prefixed with quick:. -/
def database_quick_signature (md5 : String → String)
    (tableFingerprints : List (String × String)) : String :=
  "quick:" ++
    md5 (String.intercalate "\n"
      (sortStrings (tableFingerprints.map (fun p => p.1 ++ ":" ++ p.2))))

/-- Python str.strip(): remove leading and trailing whitespace. -/
def py_strip (s : String) : String :=
  String.mk (((s.data.dropWhile Char.isWhitespace).reverse.dropWhile Char.isWhitespace).reverse)

/-- load_last_signature: the stripped content of the state file; a missing
or unreadable file reads as the empty string. -/
def load_last_signature (stateFile : Option String) : String :=
  match stateFile with
  | none => ""
  | some c => py_strip c

/-- save_current_signature: overwrite the state file wholesale with the
given signature (its own write errors are swallowed; the model keeps the
success path). -/
def save_current_signature (sig : String) (_stateFile : Option String) : Option String :=
  some sig

/-- has_database_changes: compute the current signature (propagating a
ValueError from the fallback) and report a change iff it is non-empty and
differs from the last persisted signature. -/
def has_database_changes (binlogSig contentSig : String) (sigType : Option SigType)
    (stateFile : Option String) : Except String Bool :=
  match get_quick_signature binlogSig contentSig sigType with
  | Except.error e => Except.error e
  | Except.ok sig =>
    Except.ok (decide (sig ≠ "" ∧ sig ≠ load_last_signature stateFile))

/-- write_current_signature as a state-file transformer: compute the
current signature with the default fallback; on a ValueError the file is
untouched (the exception propagates to the caller), and an empty
signature is not persisted. -/
def write_current_signature (binlogSig contentSig : String)
    (stateFile : Option String) : Option String :=
  match get_quick_signature binlogSig contentSig none with
  | Except.error _ => stateFile
  | Except.ok sig => if sig = "" then stateFile else save_current_signature sig stateFile

/-- The tail of sync_mysql (lines 589 to 594): after the table tasks, the
local signature is persisted only when the run is not a dry run. -/
def sync_mysql_signature_state (dryRun : Bool) (binlogSig contentSig : String)
    (stateFile : Option String) : Option String :=
  if dryRun then stateFile
  else write_current_signature binlogSig contentSig stateFile

/-! ### Bidirectional loop body (src/examples/full_real_time_sync.py) -/

/-- The two persisted state files sync_side touches: the source database
file and the target database file (distinct files, named from the two
connection strings). -/
structure LoopState where
  sourceFile : Option String
  targetFile : Option String
deriving DecidableEq

/-- The state-file effect of one successful sync_side apply: sync_mysql
(not a dry run) first persists the source signature computed with the
default fallback (srcBinlogPost, srcContentPost are the post-sync
strategy results on the source), then the loop computes the content
signature of the target database after the apply (targetContentPost) and
overwrites both state files with it. -/
def sync_side_after_apply (st : LoopState) (srcBinlogPost srcContentPost
    targetContentPost : String) : LoopState :=
  let afterSync : LoopState :=
    { st with
      sourceFile := sync_mysql_signature_state false srcBinlogPost srcContentPost st.sourceFile }
  { sourceFile := save_current_signature targetContentPost afterSync.sourceFile,
    targetFile := save_current_signature targetContentPost afterSync.targetFile }

/-! ### Shared lemmas -/

/-- On lists over a linear order, the order instance is the lexicographic
one: below-or-equal means equal or lexicographically below. -/
theorem list_le_iff_lex {α : Type} [LinearOrder α] {a b : List α} :
    a ≤ b ↔ a = b ∨ List.Lex (· < ·) a b :=
  Iff.rfl

/-- Every effect the insert phase emits is a local row read or an insert
whose rows are a computed-column-stripped payload for the destination
table. -/
theorem insert_phase_shape {α : Type} [LinearOrder α] [DecidableEq α]
    {localT prodT : TableSchema} {localDB : DBTable α} {opts : SyncOptions}
    {toInsert : List (List α)} {eff : Effect α}
    (heff : eff ∈ insert_phase localT prodT localDB opts toInsert) :
    (∃ side nm pks, eff = Effect.readRows side nm pks) ∨
    (∃ rows0 ig, eff = Effect.insert prodT.name (insert_payload prodT rows0) ig) := by
  unfold insert_phase at heff
  split at heff
  · simp at heff
  · rw [List.mem_flatMap] at heff
    obtain ⟨batch, _, hin⟩ := heff
    simp only [List.mem_cons] at hin
    rcases hin with h | h
    · exact Or.inl ⟨_, _, _, h⟩
    · unfold insert_rows at h
      split at h
      · simp at h
      · simp only [List.mem_singleton] at h
        exact Or.inr ⟨_, _, h⟩

/-- Every effect the update phase emits is a hash read, a local row read,
or an upsert whose rows are sanitized (computed columns of the local
table removed). -/
theorem update_phase_shape {α : Type} [LinearOrder α] [DecidableEq α]
    {md5 : String → String} {localT prodT : TableSchema}
    {localDB prodDB : DBTable α} {opts : SyncOptions}
    {overlap : List (List α)} {eff : Effect α}
    (heff : eff ∈ update_phase md5 localT prodT localDB prodDB opts overlap) :
    (∃ side nm pks, eff = Effect.readHashes side nm pks) ∨
    (∃ side nm pks, eff = Effect.readRows side nm pks) ∨
    (∃ rows0 cols, eff = Effect.upsert prodT.name (upsert_sanitized localT rows0) cols) := by
  unfold update_phase at heff
  split at heff
  · simp at heff
  · dsimp only at heff
    split at heff
    · simp at heff
    · rw [List.mem_flatMap] at heff
      obtain ⟨batch, _, hin⟩ := heff
      simp only [List.mem_cons] at hin
      rcases hin with h | h | h
      · exact Or.inl ⟨_, _, _, h⟩
      · exact Or.inl ⟨_, _, _, h⟩
      · split at h
        · simp at h
        · simp only [List.mem_cons] at h
          rcases h with h | h
          · exact Or.inr (Or.inl ⟨_, _, _, h⟩)
          · unfold upsert_rows at h
            split at h
            · simp at h
            · simp only [List.mem_cons, List.not_mem_nil, or_false] at h
              exact Or.inr (Or.inr ⟨_, _, h⟩)

/-- Every effect the delete phase emits is a delete batch. -/
theorem delete_phase_shape {α : Type} [LinearOrder α] [DecidableEq α]
    {prodT : TableSchema} {opts : SyncOptions}
    {toDelete : List (List α)} {eff : Effect α}
    (heff : eff ∈ delete_phase prodT opts toDelete) :
    ∃ nm pks, eff = Effect.delete nm pks := by
  unfold delete_phase at heff
  split at heff
  · simp at heff
  · rw [List.mem_map] at heff
    obtain ⟨batch, _, hin⟩ := heff
    exact ⟨_, _, hin.symm⟩

/-- Every effect of the apply body (the try block of sync_table) is a
read, a delete, an insert of a stripped payload, or an upsert of a
sanitized payload; in particular never a FOREIGN_KEY_CHECKS toggle. -/
theorem apply_body_shape {α : Type} [LinearOrder α] [DecidableEq α]
    {md5 : String → String} {localT prodT : TableSchema}
    {localDB prodDB : DBTable α} {opts : SyncOptions}
    {toInsert overlap toDelete : List (List α)} {eff : Effect α}
    (heff : eff ∈ insert_phase localT prodT localDB opts toInsert ++
      update_phase md5 localT prodT localDB prodDB opts overlap ++
      delete_phase prodT opts toDelete) :
    (∃ side nm pks, eff = Effect.readRows side nm pks) ∨
    (∃ side nm pks, eff = Effect.readHashes side nm pks) ∨
    (∃ nm pks, eff = Effect.delete nm pks) ∨
    (∃ rows0 ig, eff = Effect.insert prodT.name (insert_payload prodT rows0) ig) ∨
    (∃ rows0 cols, eff = Effect.upsert prodT.name (upsert_sanitized localT rows0) cols) := by
  simp only [List.mem_append] at heff
  rcases heff with (h | h) | h
  · rcases insert_phase_shape h with h' | h'
    · exact Or.inl h'
    · exact Or.inr (Or.inr (Or.inr (Or.inl h')))
  · rcases update_phase_shape h with h' | h' | h'
    · exact Or.inr (Or.inl h')
    · exact Or.inl h'
    · exact Or.inr (Or.inr (Or.inr (Or.inr h')))
  · exact Or.inr (Or.inr (Or.inl (delete_phase_shape h)))

/-- A column name kept by the insert payload filter is not a computed
column, provided column names are not duplicated in the reflected
schema. -/
theorem allowed_not_computed {t : TableSchema}
    (hnodup : (t.columns.map Column.name).Nodup) {n : String}
    (hn : n ∈ insert_allowed_cols t) : n ∉ get_computed_column_names t := by
  intro hc
  unfold insert_allowed_cols at hn
  unfold get_computed_column_names at hc
  rw [List.mem_map] at hn hc
  obtain ⟨c1, hc1, hn1⟩ := hn
  obtain ⟨c2, hc2, hn2⟩ := hc
  rw [List.mem_filter] at hc1 hc2
  have : c1 = c2 :=
    List.inj_on_of_nodup_map hnodup hc1.1 hc2.1 (hn1.trans hn2.symm)
  subst this
  rw [hc2.2] at hc1
  simp at hc1

/-- Concatenating the chunks of a sequence recovers the sequence, given
enough fuel and a positive chunk size. -/
theorem chunkedAux_flatten {β : Type} {size : Nat} (hs : 0 < size) :
    ∀ (fuel : Nat) (seq : List β), seq.length ≤ fuel →
      (chunkedAux size fuel seq).flatten = seq := by
  intro fuel
  induction fuel with
  | zero =>
    intro seq hlen
    have h0 : seq = [] := List.eq_nil_of_length_eq_zero (Nat.le_zero.mp hlen)
    subst h0
    rfl
  | succ n ih =>
    intro seq hlen
    cases seq with
    | nil => rfl
    | cons b rest =>
      unfold chunkedAux
      rw [if_neg (Nat.pos_iff_ne_zero.mp hs)]
      rw [List.flatten_cons]
      rw [ih ((b :: rest).drop size) (by simp at hlen ⊢; omega)]
      exact List.take_append_drop size (b :: rest)

/-- chunked partitions the sequence: flattening the chunks gives it
back. -/
theorem chunked_flatten {β : Type} {size : Nat} (hs : 0 < size)
    (seq : List β) : (chunked seq size).flatten = seq :=
  chunkedAux_flatten hs seq.length seq (Nat.le_refl _)

/-- Membership in some chunk is membership in the chunked sequence. -/
theorem mem_chunked {β : Type} {size : Nat} (hs : 0 < size)
    {seq : List β} {x : β} :
    (∃ batch ∈ chunked seq size, x ∈ batch) ↔ x ∈ seq := by
  rw [← List.mem_flatten, chunked_flatten hs]

/-! ### Claims -/

/-- C1: for all finite primary-key sets L (local) and R (remote), the
per-table diff of sync_table yields toInsert = L minus R, toDelete =
R minus L, overlap = L intersect R (hence toInsert and toDelete are
disjoint, toInsert with overlap recovers L, toDelete with overlap
recovers R), and each result is sorted lexicographically on tuple
elements. -/
theorem C1_diff_partitions_and_sorted {α : Type} [LinearOrder α] [DecidableEq α]
    (L R : Finset (List α)) :
    (diffKeys L R).1.toFinset = L \ R ∧
    (diffKeys L R).2.1.toFinset = R \ L ∧
    (diffKeys L R).2.2.toFinset = L ∩ R ∧
    Disjoint (L \ R) (R \ L) ∧
    (L \ R) ∪ (L ∩ R) = L ∧
    (R \ L) ∪ (L ∩ R) = R ∧
    List.Sorted (fun a b => a = b ∨ List.Lex (· < ·) a b) (diffKeys L R).1 ∧
    List.Sorted (fun a b => a = b ∨ List.Lex (· < ·) a b) (diffKeys L R).2.1 ∧
    List.Sorted (fun a b => a = b ∨ List.Lex (· < ·) a b) (diffKeys L R).2.2 := by
  refine ⟨Finset.sort_toFinset _ _, Finset.sort_toFinset _ _, Finset.sort_toFinset _ _,
    disjoint_sdiff_sdiff, Finset.sdiff_union_inter L R, ?_, ?_, ?_, ?_⟩
  · rw [Finset.inter_comm]
    exact Finset.sdiff_union_inter R L
  · exact (Finset.sort_sorted (· ≤ ·) _).imp (fun h => list_le_iff_lex.mp h)
  · exact (Finset.sort_sorted (· ≤ ·) _).imp (fun h => list_le_iff_lex.mp h)
  · exact (Finset.sort_sorted (· ≤ ·) _).imp (fun h => list_le_iff_lex.mp h)

/-- C2 counterexample: with no explicit signature type and both the binlog
and the content strategy returning empty, get_quick_signature raises a
ValueError instead of returning the result of the quick fingerprint strategy,
even though a quick fingerprint (database_quick_signature) is always a
non-empty string. -/
theorem C2_counterexample_fallback_raises :
    database_quick_signature (fun s => s) [("orders", "3:0:1")] ≠ "" ∧
    get_quick_signature "" "" none = Except.error "cant get signature" := by
  exact ⟨by decide, rfl⟩

/-- C2 (amended): with no explicit signature type selected, the fallback
tries only binlog then content and returns the first non-empty result;
when both are empty it raises a ValueError — the quick fingerprint
strategy is never consulted. -/
theorem C2_fallback_binlog_content_error (b c : String) :
    (b ≠ "" → get_quick_signature b c none = Except.ok b) ∧
    (b = "" → c ≠ "" → get_quick_signature b c none = Except.ok c) ∧
    (b = "" → c = "" → get_quick_signature b c none = Except.error "cant get signature") := by
  refine ⟨fun hb => ?_, fun hb hc => ?_, fun hb hc => ?_⟩ <;>
    simp [get_quick_signature, hb]
  · simp [hc]
  · simp [hc]

/-- C2 witness: the amended fallback behavior at concrete strategy
results. -/
theorem C2_fallback_witness :
    get_quick_signature "binlog:f:7" "content:x" none = Except.ok "binlog:f:7" ∧
    get_quick_signature "" "content:x" none = Except.ok "content:x" ∧
    get_quick_signature "" "" none = Except.error "cant get signature" :=
  ⟨(C2_fallback_binlog_content_error "binlog:f:7" "content:x").1 (by decide),
   (C2_fallback_binlog_content_error "" "content:x").2.1 rfl (by decide),
   (C2_fallback_binlog_content_error "" "").2.2 rfl rfl⟩

/-- C7: has_database_changes returns true exactly when the computed
signature is a non-empty string differing from the persisted one (a
missing state file reading as the empty string); a run that returns at
all never reports true for an empty current signature. -/
theorem C7_has_changes_iff (b c : String) (ty : Option SigType) (f : Option String) :
    (has_database_changes b c ty f = Except.ok true ↔
      ∃ s, get_quick_signature b c ty = Except.ok s ∧ s ≠ "" ∧
        s ≠ load_last_signature f) ∧
    (∀ s, get_quick_signature b c ty = Except.ok s → s = "" →
      has_database_changes b c ty f = Except.ok false) ∧
    load_last_signature none = "" := by
  refine ⟨?_, ?_, rfl⟩
  · unfold has_database_changes
    cases hq : get_quick_signature b c ty with
    | error e => simp
    | ok s => simp [decide_eq_true_iff]
  · intro s hs hempty
    unfold has_database_changes
    rw [hs, hempty]
    simp

/-- C7 witness: a fresh binlog signature against a missing state file
reports a change; an empty signature reports none. -/
theorem C7_has_changes_witness :
    has_database_changes "binlog:f:7" "" none none = Except.ok true ∧
    has_database_changes "" "" (some SigType.content) (some "x") = Except.ok false :=
  ⟨(C7_has_changes_iff "binlog:f:7" "" none none).1.mpr
      ⟨"binlog:f:7", rfl, by decide, by decide⟩,
   (C7_has_changes_iff "" "" (some SigType.content) (some "x")).2.1 "" rfl rfl⟩

/-- C8: a table whose reflected primary key is empty is skipped: the
trace is exactly the warning log, so no read or write is issued against
either database and the destination rows for that table are unchanged. -/
theorem C8_no_primary_key_skips {α : Type} [LinearOrder α] [DecidableEq α]
    (md5 : String → String) (localT prodT : TableSchema)
    (localDB prodDB : DBTable α) (opts : SyncOptions) (failAt : Option Nat)
    (h : get_primary_key_column_names localT = []) :
    sync_table md5 localT prodT localDB prodDB opts failAt =
      [Effect.warnNoPK localT.name] := by
  simp [sync_table, h]

/-- C8 witness: a concrete table with no primary key yields only the
warning effect. -/
theorem C8_no_primary_key_witness :
    sync_table (α := Nat) (fun s => s)
      ⟨"nokeys", [⟨"v", false⟩], []⟩ ⟨"nokeys", [⟨"v", false⟩], []⟩
      ⟨∅, fun _ => []⟩ ⟨∅, fun _ => []⟩
      ⟨false, 1000, true, true⟩ none = [Effect.warnNoPK "nokeys"] :=
  C8_no_primary_key_skips (fun s => s) _ _ _ _ _ none rfl

/-- C5: a dry run never mutates the destination: the sync_table trace
contains no insert, upsert or delete statement and no FOREIGN_KEY_CHECKS
toggle, and the sync_mysql tail leaves the signature state file exactly
as it was. -/
theorem C5_dry_run_frame {α : Type} [LinearOrder α] [DecidableEq α]
    (md5 : String → String) (localT prodT : TableSchema)
    (localDB prodDB : DBTable α) (opts : SyncOptions) (failAt : Option Nat)
    (h : opts.dryRun = true) :
    (∀ eff ∈ sync_table md5 localT prodT localDB prodDB opts failAt,
      is_write_effect eff = false) ∧
    (∀ b c f, sync_mysql_signature_state true b c f = f) := by
  constructor
  · intro eff heff
    by_cases hpk : get_primary_key_column_names localT = [] <;>
      simp [sync_table, hpk, h] at heff
    · subst heff; rfl
    · rcases heff with heff | heff <;> subst heff <;> rfl
  · intro b c f
    simp [sync_mysql_signature_state]

/-- C5 witness: a concrete dry run with a non-empty plan; the first
planned effect is a pure read and the state file is untouched. -/
theorem C5_dry_run_witness :
    is_write_effect (α := Nat) (Effect.readPKs Side.localSide "orders") = false ∧
    sync_mysql_signature_state true "binlog:f:7" "content:x" (some "old") = some "old" := by
  refine ⟨(C5_dry_run_frame (α := Nat) (fun s => s)
      ⟨"orders", [⟨"id", false⟩], ["id"]⟩ ⟨"orders", [⟨"id", false⟩], ["id"]⟩
      ⟨{[1]}, fun _ => [("id", some "1")]⟩ ⟨∅, fun _ => []⟩
      ⟨true, 1000, true, true⟩ none rfl).1 _ ?_, ?_⟩
  · simp [sync_table, get_primary_key_column_names]
  · exact (C5_dry_run_frame (α := Nat) (fun s => s)
      ⟨"orders", [⟨"id", false⟩], ["id"]⟩ ⟨"orders", [⟨"id", false⟩], ["id"]⟩
      ⟨{[1]}, fun _ => [("id", some "1")]⟩ ⟨∅, fun _ => []⟩
      ⟨true, 1000, true, true⟩ none rfl).2 "binlog:f:7" "content:x" (some "old")

/-- C9: after a successful one-directional apply in the bidirectional
loop, both persisted state files hold the post-sync content
signature, and an immediately following content-signature change check on
the destination side reports no change. -/
theorem C9_feedback_loop_suppression (st : LoopState)
    (srcBinlogPost srcContentPost targetContentPost targetBinlogAny : String)
    (htrim : py_strip targetContentPost = targetContentPost) :
    (sync_side_after_apply st srcBinlogPost srcContentPost targetContentPost).sourceFile =
      some targetContentPost ∧
    (sync_side_after_apply st srcBinlogPost srcContentPost targetContentPost).targetFile =
      some targetContentPost ∧
    has_database_changes targetBinlogAny targetContentPost (some SigType.content)
      (sync_side_after_apply st srcBinlogPost srcContentPost targetContentPost).targetFile =
      Except.ok false := by
  refine ⟨rfl, rfl, ?_⟩
  simp [has_database_changes, get_quick_signature, sync_side_after_apply,
    save_current_signature, load_last_signature, htrim]

/-- C9 witness: concrete post-sync signatures; both files end up holding
the destination content signature and the follow-up check is negative. -/
theorem C9_feedback_loop_witness :
    (sync_side_after_apply ⟨none, some "stale"⟩ "binlog:f:7" "content:src"
      "content:dst").sourceFile = some "content:dst" ∧
    (sync_side_after_apply ⟨none, some "stale"⟩ "binlog:f:7" "content:src"
      "content:dst").targetFile = some "content:dst" ∧
    has_database_changes "" "content:dst" (some SigType.content)
      (sync_side_after_apply ⟨none, some "stale"⟩ "binlog:f:7" "content:src"
        "content:dst").targetFile = Except.ok false :=
  C9_feedback_loop_suppression ⟨none, some "stale"⟩ "binlog:f:7" "content:src"
    "content:dst" "" (by decide)

/-- Any insert or upsert effect of a sync_table trace carries a stripped
payload: inserts are insert_payload images, upserts are upsert_sanitized
images. -/
theorem sync_table_mutation_shape {α : Type} [LinearOrder α] [DecidableEq α]
    {md5 : String → String} {localT prodT : TableSchema}
    {localDB prodDB : DBTable α} {opts : SyncOptions} {failAt : Option Nat}
    {eff : Effect α}
    (heff : eff ∈ sync_table md5 localT prodT localDB prodDB opts failAt)
    (hmut : (∃ nm rows ig, eff = Effect.insert nm rows ig) ∨
      (∃ nm rows cols, eff = Effect.upsert nm rows cols)) :
    (∃ rows0 ig, eff = Effect.insert prodT.name (insert_payload prodT rows0) ig) ∨
    (∃ rows0 cols, eff = Effect.upsert prodT.name (upsert_sanitized localT rows0) cols) := by
  have hnotmisc : ∀ (e : Effect α), (∃ nm rows ig, e = Effect.insert nm rows ig) ∨
      (∃ nm rows cols, e = Effect.upsert nm rows cols) →
      e ≠ Effect.warnNoPK localT.name ∧
      (∀ side nm, e ≠ Effect.readPKs side nm) ∧ (∀ b, e ≠ Effect.setFK b) := by
    rintro e (⟨nm, rows, ig, rfl⟩ | ⟨nm, rows, cols, rfl⟩) <;>
      exact ⟨by simp, fun _ _ => by simp, fun _ => by simp⟩
  obtain ⟨hw, hr, hs⟩ := hnotmisc eff hmut
  unfold sync_table at heff
  split at heff
  · simp only [List.mem_singleton] at heff
    exact absurd heff hw
  · dsimp only at heff
    split at heff
    · simp only [List.mem_cons, List.not_mem_nil, or_false] at heff
      rcases heff with h | h
      · exact absurd h (hr _ _)
      · exact absurd h (hr _ _)
    · simp only [List.append_assoc, List.mem_append, List.mem_cons,
        List.not_mem_nil, or_false] at heff
      rcases heff with (h | h) | heff
      · exact absurd h (hr _ _)
      · exact absurd h (hr _ _)
      · rcases heff with h | h | h
        · split at h
          · simp only [List.mem_singleton] at h
            exact absurd h (hs _)
          · simp at h
        · have hbody : eff ∈ insert_phase localT prodT localDB opts
              (diffKeys localDB.keys prodDB.keys).1 ++
                update_phase md5 localT prodT localDB prodDB opts
                  (diffKeys localDB.keys prodDB.keys).2.2 ++
                delete_phase prodT opts (diffKeys localDB.keys prodDB.keys).2.1 := by
            cases failAt with
            | none =>
              rw [← List.append_assoc] at h
              exact h
            | some i =>
              have h' := List.take_subset i _ h
              rw [← List.append_assoc] at h'
              exact h'
          rcases apply_body_shape hbody with h' | h' | h' | h' | h'
          · obtain ⟨side, nm, pks, rfl⟩ := h'
            rcases hmut with ⟨_, _, _, h''⟩ | ⟨_, _, _, h''⟩ <;> simp at h''
          · obtain ⟨side, nm, pks, rfl⟩ := h'
            rcases hmut with ⟨_, _, _, h''⟩ | ⟨_, _, _, h''⟩ <;> simp at h''
          · obtain ⟨nm, pks, rfl⟩ := h'
            rcases hmut with ⟨_, _, _, h''⟩ | ⟨_, _, _, h''⟩ <;> simp at h''
          · exact Or.inl h'
          · exact Or.inr h'
        · split at h
          · simp only [List.mem_singleton] at h
            exact absurd h (hs _)
          · simp at h

/-- C6: in a non-dry-run per-table apply with disableFKChecks set,
FOREIGN_KEY_CHECKS are turned off right after planning and before any
mutation, nothing inside the apply body toggles them, and the last effect
of the trace is the re-enabling toggle regardless of where (failAt) the
insert, update or delete phase raises. -/
theorem C6_fk_checks_restored {α : Type} [LinearOrder α] [DecidableEq α]
    (md5 : String → String) (localT prodT : TableSchema)
    (localDB prodDB : DBTable α) (opts : SyncOptions) (failAt : Option Nat)
    (hfk : opts.disableFKChecks = true) (hdry : opts.dryRun = false)
    (hpk : get_primary_key_column_names localT ≠ []) :
    ∃ body : List (Effect α),
      sync_table md5 localT prodT localDB prodDB opts failAt =
        [Effect.readPKs Side.localSide localT.name,
         Effect.readPKs Side.prodSide prodT.name,
         Effect.setFK false] ++ body ++ [Effect.setFK true] ∧
      ∀ eff ∈ body, is_fk_effect eff = false := by
  refine ⟨(match failAt with
    | none => insert_phase localT prodT localDB opts
          (diffKeys localDB.keys prodDB.keys).1 ++
        update_phase md5 localT prodT localDB prodDB opts
          (diffKeys localDB.keys prodDB.keys).2.2 ++
        delete_phase prodT opts (diffKeys localDB.keys prodDB.keys).2.1
    | some i => (insert_phase localT prodT localDB opts
          (diffKeys localDB.keys prodDB.keys).1 ++
        update_phase md5 localT prodT localDB prodDB opts
          (diffKeys localDB.keys prodDB.keys).2.2 ++
        delete_phase prodT opts (diffKeys localDB.keys prodDB.keys).2.1).take i), ?_, ?_⟩
  · unfold sync_table
    rw [if_neg hpk]
    dsimp only
    rw [hdry, hfk]
    cases failAt <;> simp
  · intro eff heff
    have hbody : eff ∈ insert_phase localT prodT localDB opts
        (diffKeys localDB.keys prodDB.keys).1 ++
          update_phase md5 localT prodT localDB prodDB opts
            (diffKeys localDB.keys prodDB.keys).2.2 ++
          delete_phase prodT opts (diffKeys localDB.keys prodDB.keys).2.1 := by
      cases failAt with
      | none => exact heff
      | some i => exact List.take_subset i _ heff
    rcases apply_body_shape hbody with h | h | h | h | h
    · obtain ⟨_, _, _, rfl⟩ := h; rfl
    · obtain ⟨_, _, _, rfl⟩ := h; rfl
    · obtain ⟨_, _, rfl⟩ := h; rfl
    · obtain ⟨_, _, rfl⟩ := h; rfl
    · obtain ⟨_, _, rfl⟩ := h; rfl

/-- C6 witness: with a concrete table, both FOREIGN_KEY_CHECKS toggles
appear in the trace even when the apply body fails at its very first
effect. -/
theorem C6_fk_checks_witness :
    Effect.setFK (α := Nat) false ∈ sync_table (fun s => s)
      ⟨"orders", [⟨"id", false⟩], ["id"]⟩ ⟨"orders", [⟨"id", false⟩], ["id"]⟩
      ⟨∅, fun _ => []⟩ ⟨∅, fun _ => []⟩ ⟨false, 1000, true, true⟩ (some 0) ∧
    Effect.setFK (α := Nat) true ∈ sync_table (fun s => s)
      ⟨"orders", [⟨"id", false⟩], ["id"]⟩ ⟨"orders", [⟨"id", false⟩], ["id"]⟩
      ⟨∅, fun _ => []⟩ ⟨∅, fun _ => []⟩ ⟨false, 1000, true, true⟩ (some 0) := by
  obtain ⟨body, heq, -⟩ := C6_fk_checks_restored (α := Nat) (fun s => s)
    ⟨"orders", [⟨"id", false⟩], ["id"]⟩ ⟨"orders", [⟨"id", false⟩], ["id"]⟩
    ⟨∅, fun _ => []⟩ ⟨∅, fun _ => []⟩ ⟨false, 1000, true, true⟩ (some 0)
    rfl rfl (by decide)
  rw [heq]
  constructor <;> simp

/-- C4: computed/generated columns never appear in a written payload: any
insert effect of a sync_table trace mentions no computed column of the
destination table (given the reflected column names are duplicate-free),
and any upsert effect mentions no computed column of the local table,
whatever values the fetched rows contained. -/
theorem C4_computed_columns_excluded {α : Type} [LinearOrder α] [DecidableEq α]
    (md5 : String → String) (localT prodT : TableSchema)
    (localDB prodDB : DBTable α) (opts : SyncOptions) (failAt : Option Nat)
    (hnodup : (prodT.columns.map Column.name).Nodup) :
    (∀ nm rows ig, Effect.insert nm rows ig ∈
        sync_table md5 localT prodT localDB prodDB opts failAt →
      ∀ r ∈ rows, ∀ kv ∈ r, kv.1 ∉ get_computed_column_names prodT) ∧
    (∀ nm rows cols, Effect.upsert nm rows cols ∈
        sync_table md5 localT prodT localDB prodDB opts failAt →
      ∀ r ∈ rows, ∀ kv ∈ r, kv.1 ∉ get_computed_column_names localT) := by
  constructor
  · intro nm rows ig htr r hr kv hkv
    rcases sync_table_mutation_shape htr (Or.inl ⟨nm, rows, ig, rfl⟩) with h | h
    · obtain ⟨rows0, ig', heq⟩ := h
      obtain ⟨-, hrows, -⟩ := Effect.insert.inj heq
      subst hrows
      unfold insert_payload at hr
      rw [List.mem_map] at hr
      obtain ⟨r0, -, hr0⟩ := hr
      subst hr0
      rw [List.mem_filter] at hkv
      exact allowed_not_computed hnodup (of_decide_eq_true hkv.2)
    · obtain ⟨_, _, heq⟩ := h
      simp at heq
  · intro nm rows cols htr r hr kv hkv
    rcases sync_table_mutation_shape htr (Or.inr ⟨nm, rows, cols, rfl⟩) with h | h
    · obtain ⟨_, _, heq⟩ := h
      simp at heq
    · obtain ⟨rows0, cols', heq⟩ := h
      obtain ⟨-, hrows, -⟩ := Effect.upsert.inj heq
      subst hrows
      unfold upsert_sanitized at hr
      rw [List.mem_map] at hr
      obtain ⟨r0, -, hr0⟩ := hr
      subst hr0
      rw [List.mem_filter] at hkv
      exact of_decide_eq_true hkv.2

/-- C4 witness: a concrete fetched row carries a value for the computed
column gen, yet the key kept in the written insert payload (id) is not a
computed column; the instantiation goes through an insert effect of a
concrete trace. -/
theorem C4_computed_columns_witness :
    ("id" : String) ∉
      get_computed_column_names ⟨"orders", [⟨"id", false⟩, ⟨"gen", true⟩], ["id"]⟩ := by
  refine (C4_computed_columns_excluded (α := Nat) (fun s => s)
      ⟨"orders", [⟨"id", false⟩, ⟨"gen", true⟩], ["id"]⟩
      ⟨"orders", [⟨"id", false⟩, ⟨"gen", true⟩], ["id"]⟩
      ⟨{[1]}, fun _ => [("id", some "1"), ("gen", some "x")]⟩
      ⟨∅, fun _ => []⟩ ⟨false, 1000, true, true⟩ none (by decide)).1
    "orders" [[("id", some "1")]] true ?_ [("id", some "1")] ?_ ("id", some "1") ?_
  · show Effect.insert "orders" [[("id", some "1")]] true ∈ sync_table _ _ _ _ _ _ _
    simp [sync_table, get_primary_key_column_names, diffKeys, sortPKs,
      Finset.sdiff_empty, Finset.empty_sdiff, Finset.inter_empty,
      Finset.sort_empty, Finset.sort_singleton, insert_phase, update_phase,
      delete_phase, chunked, chunkedAux, fetch_rows_by_pks, insert_rows,
      insert_payload, insert_allowed_cols]
  · simp
  · simp

/-- C3: for a table with a primary key and at least one data column, an
overlap key is upserted iff the local and remote row fingerprints at that
key differ; identical data-column values on both sides never trigger an
upsert; and each changed key really is carried into an upsert effect of
the non-dry-run sync_table trace (as the sanitized local row).  Holds for
an arbitrary hash function md5. -/
theorem C3_hash_gated_updates {α : Type} [LinearOrder α] [DecidableEq α]
    (md5 : String → String) (localT prodT : TableSchema) (localDB prodDB : DBTable α)
    (opts : SyncOptions) (k : List α)
    (hpk : get_primary_key_column_names localT ≠ [])
    (hdata : get_updatable_column_names localT (get_primary_key_column_names localT) ≠ [])
    (hbs : 0 < opts.batchSize)
    (hk : k ∈ localDB.keys ∩ prodDB.keys) :
    (k ∈ sync_table_changed_pks md5 localT localDB prodDB opts ↔
      row_fingerprint md5
          (get_updatable_column_names localT (get_primary_key_column_names localT))
          (localDB.rowOf k) ≠
        row_fingerprint md5
          (get_updatable_column_names localT (get_primary_key_column_names localT))
          (prodDB.rowOf k)) ∧
    ((∀ c ∈ get_updatable_column_names localT (get_primary_key_column_names localT),
        colVal (localDB.rowOf k) c = colVal (prodDB.rowOf k) c) →
      k ∉ sync_table_changed_pks md5 localT localDB prodDB opts) ∧
    (opts.dryRun = false → k ∈ sync_table_changed_pks md5 localT localDB prodDB opts →
      ∃ rows, (localDB.rowOf k).filter
          (fun kv => kv.1 ∉ get_computed_column_names localT) ∈ rows ∧
        Effect.upsert prodT.name rows
            (get_updatable_column_names localT (get_primary_key_column_names localT)) ∈
          sync_table md5 localT prodT localDB prodDB opts none) := by
  have hk1 : k ∈ localDB.keys := (Finset.mem_inter.mp hk).1
  have hk2 : k ∈ prodDB.keys := (Finset.mem_inter.mp hk).2
  have hksort : k ∈ sortPKs (localDB.keys ∩ prodDB.keys) := by
    unfold sortPKs
    exact (Finset.mem_sort (· ≤ ·)).mpr hk
  have hoverlap : sortPKs (localDB.keys ∩ prodDB.keys) ≠ [] :=
    List.ne_nil_of_mem hksort
  have hiff : k ∈ sync_table_changed_pks md5 localT localDB prodDB opts ↔
      row_fingerprint md5
          (get_updatable_column_names localT (get_primary_key_column_names localT))
          (localDB.rowOf k) ≠
        row_fingerprint md5
          (get_updatable_column_names localT (get_primary_key_column_names localT))
          (prodDB.rowOf k) := by
    unfold sync_table_changed_pks
    dsimp only
    rw [if_neg hoverlap, if_neg hdata, List.mem_flatMap]
    constructor
    · rintro ⟨batch, hbatch, hkin⟩
      unfold changed_pks_in_batch at hkin
      rw [List.mem_filter] at hkin
      obtain ⟨hkb, hp⟩ := hkin
      have hp' := of_decide_eq_true hp
      simp only [fetch_hashes_for_pks] at hp'
      rw [if_pos ⟨hkb, hk1⟩, if_pos ⟨hkb, hk2⟩] at hp'
      intro heq
      exact hp' (by rw [heq])
    · intro hne
      obtain ⟨batch, hbatch, hkb⟩ := (mem_chunked hbs).mpr hksort
      refine ⟨batch, hbatch, ?_⟩
      unfold changed_pks_in_batch
      rw [List.mem_filter]
      refine ⟨hkb, decide_eq_true ?_⟩
      simp only [fetch_hashes_for_pks]
      rw [if_pos ⟨hkb, hk1⟩, if_pos ⟨hkb, hk2⟩]
      simp only [ne_eq, Option.some.injEq]
      exact hne
  refine ⟨hiff, fun hcols hkmem => ?_, fun hdry hkmem => ?_⟩
  · apply hiff.mp hkmem
    unfold row_fingerprint
    congr 2
    exact List.map_congr_left (fun c hc => by rw [hcols c hc])
  · unfold sync_table_changed_pks at hkmem
    dsimp only at hkmem
    rw [if_neg hoverlap, if_neg hdata, List.mem_flatMap] at hkmem
    obtain ⟨batch, hbatch, hkin⟩ := hkmem
    have hrowmem : (localDB.rowOf k).filter
        (fun kv => kv.1 ∉ get_computed_column_names localT) ∈
        upsert_sanitized localT (fetch_rows_by_pks localDB
          (changed_pks_in_batch md5
            (get_updatable_column_names localT (get_primary_key_column_names localT))
            localDB prodDB batch)) := by
      unfold upsert_sanitized fetch_rows_by_pks
      refine List.mem_map.mpr ⟨localDB.rowOf k, ?_, rfl⟩
      refine List.mem_map.mpr ⟨k, ?_, rfl⟩
      rw [List.mem_filter]
      exact ⟨hkin, decide_eq_true hk1⟩
    refine ⟨upsert_sanitized localT (fetch_rows_by_pks localDB
      (changed_pks_in_batch md5
        (get_updatable_column_names localT (get_primary_key_column_names localT))
        localDB prodDB batch)), hrowmem, ?_⟩
    have heffmem : Effect.upsert prodT.name
        (upsert_sanitized localT (fetch_rows_by_pks localDB
          (changed_pks_in_batch md5
            (get_updatable_column_names localT (get_primary_key_column_names localT))
            localDB prodDB batch)))
        (get_updatable_column_names localT (get_primary_key_column_names localT)) ∈
        update_phase md5 localT prodT localDB prodDB opts
          (sortPKs (localDB.keys ∩ prodDB.keys)) := by
      unfold update_phase
      rw [if_neg hoverlap]
      dsimp only
      rw [if_neg hdata, List.mem_flatMap]
      refine ⟨batch, hbatch, ?_⟩
      refine List.mem_cons_of_mem _ (List.mem_cons_of_mem _ ?_)
      rw [if_neg (List.ne_nil_of_mem hkin)]
      refine List.mem_cons_of_mem _ ?_
      unfold upsert_rows
      rw [if_neg (List.ne_nil_of_mem hrowmem)]
      exact List.mem_singleton.mpr rfl
    unfold sync_table
    rw [if_neg hpk]
    dsimp only
    rw [if_neg (show ¬(opts.dryRun = true) by simp [hdry])]
    refine List.mem_append_left _ (List.mem_append_right _ ?_)
    refine List.mem_append_left _ (List.mem_append_right _ ?_)
    simp only [diffKeys]
    exact heffmem

/-- C3 witness: a concrete overlap key whose single data column differs
on the two sides is in the changed set. -/
theorem C3_hash_gated_witness :
    [1] ∈ sync_table_changed_pks (α := Nat) (fun s => s)
      ⟨"orders", [⟨"id", false⟩, ⟨"v", false⟩], ["id"]⟩
      ⟨{[1]}, fun _ => [("id", some "1"), ("v", some "a")]⟩
      ⟨{[1]}, fun _ => [("id", some "1"), ("v", some "b")]⟩
      ⟨false, 1000, true, true⟩ := by
  refine ((C3_hash_gated_updates (α := Nat) (fun s => s)
      ⟨"orders", [⟨"id", false⟩, ⟨"v", false⟩], ["id"]⟩
      ⟨"orders", [⟨"id", false⟩, ⟨"v", false⟩], ["id"]⟩
      ⟨{[1]}, fun _ => [("id", some "1"), ("v", some "a")]⟩
      ⟨{[1]}, fun _ => [("id", some "1"), ("v", some "b")]⟩
      ⟨false, 1000, true, true⟩ [1]
      (by decide) (by decide) (by decide) (by decide)).1).mpr ?_
  decide

/-- C10: insert_rows reports the length of its stripped payload (equal to
the number of fetched rows), returning 0 with no round-trip for an empty
batch, not the count reported by the engine; under INSERT IGNORE a duplicate-key row is
skipped by the engine but still counted, so the reported total exceeds
the rows actually written. -/
theorem C10_insert_rows_count :
    (∀ (t : TableSchema) (rows : List Row) (ig : Bool),
      (insert_rows (α := Nat) t rows ig).2 = (insert_payload t rows).length ∧
      (insert_payload t rows).length = rows.length) ∧
    (∀ (t : TableSchema) (ig : Bool), insert_rows (α := Nat) t [] ig = ([], 0)) ∧
    insert_ignore_written {[some "1"]} ["id"]
      (insert_payload ⟨"orders", [⟨"id", false⟩], ["id"]⟩ [[("id", some "1")]]) <
      (insert_rows (α := Nat) ⟨"orders", [⟨"id", false⟩], ["id"]⟩
        [[("id", some "1")]] true).2 := by
  refine ⟨fun t rows ig => ⟨?_, ?_⟩, fun t ig => rfl, ?_⟩
  · unfold insert_rows
    split
    · next h => subst h; rfl
    · rfl
  · unfold insert_payload
    exact List.length_map _ _
  · decide

end MySqlSyncPro
